import Mathlib

/-!
Verification development for the personal-finance skill.

This file gives a shallow embedding, in Lean, of the parts of the
repository that the verified properties talk about:

* `scripts/categorize.py` — the rule-based categorization engine
  (`categorize_transaction`, `auto_categorize_recent`, `categorize_batch`,
  `add_merchant_rule`, `get_default_categories`);
* the categorization-related database operations of `scripts/db.py`
  (`get_recent_transactions`, `update_transaction_categories`), with the
  SQLite table modelled as a list of rows;
* `scripts/csv_import.py` — `parse_amount`, `parse_date`, `find_column`,
  `create_transaction_hash` (including a genuine MD5 implementation) and
  the row-processing/storage pipeline of `import_csv`.

Python floats are modelled as rationals (`Rat`); machine-level IEEE
behaviour is outside the embedding.  Fallible operations return `Option`
or `Except`.  Stateful code is modelled by explicit state passing.
-/

namespace FinanceSkill

set_option maxRecDepth 4000
set_option maxHeartbeats 1600000

/-! ### Regex matching for the dialect used by the repository

Every regex appearing in the repository's category rules has the shape
`(?i)` (optional) followed by literal characters (possibly
backslash-escaped, as produced by `re.escape`) separated by `.*`
wildcards.  `re.search` on such a pattern succeeds iff the literal
segments occur in the text, in order.  We compile a pattern string to its
list of literal segments and implement that search directly. -/

/-- Lowercase a character list (ASCII case folding, as `Char.toLower`). -/
def lcLower (l : List Char) : List Char := l.map Char.toLower

/-- Find the first occurrence of `needle` in the haystack and return the
remainder of the haystack after that occurrence; `none` if absent. -/
def findDrop (needle : List Char) : List Char → Option (List Char)
  | [] => if needle.isPrefixOf ([] : List Char) then some [] else none
  | c :: t =>
    if needle.isPrefixOf (c :: t) then some ((c :: t).drop needle.length)
    else findDrop needle t

/-- Substring containment on character lists (Python's `in` on strings). -/
def listInfix (needle hay : List Char) : Bool := (findDrop needle hay).isSome

/-! Small string helpers, defined by structural recursion over the
character list (the embedding's own `strip`, `lower`, `upper`, slicing,
splitting and number formatting). -/

/-- Python's `str.strip()` on ASCII whitespace. -/
def pyStrip (s : String) : String :=
  ⟨((s.toList.dropWhile Char.isWhitespace).reverse.dropWhile Char.isWhitespace).reverse⟩

/-- Python's `str.lower()` (ASCII case folding). -/
def pyLower (s : String) : String := ⟨lcLower s.toList⟩

/-- Python's `str.upper()` (ASCII case folding). -/
def pyUpper (s : String) : String := ⟨s.toList.map Char.toUpper⟩

/-- Does the string start with the given literal? -/
def strStartsWith (s pre : String) : Bool := pre.toList.isPrefixOf s.toList

/-- Does the string end with the given literal? -/
def strEndsWith (s suf : String) : Bool :=
  suf.toList.reverse.isPrefixOf s.toList.reverse

/-- Drop the first `n` characters. -/
def strDrop (s : String) (n : Nat) : String := ⟨s.toList.drop n⟩

/-- Drop the last `n` characters. -/
def strDropRight (s : String) (n : Nat) : String :=
  ⟨(s.toList.reverse.drop n).reverse⟩

/-- Keep the first `n` characters. -/
def strTake (s : String) (n : Nat) : String := ⟨s.toList.take n⟩

/-- Decimal digits of a natural number (fuel-driven). -/
def natStrAux : Nat → Nat → List Char → List Char
  | 0, _, acc => acc
  | fuel + 1, n, acc =>
    if n < 10 then Char.ofNat (48 + n) :: acc
    else natStrAux fuel (n / 10) (Char.ofNat (48 + n % 10) :: acc)

/-- Decimal representation of a natural number. -/
def natStr (n : Nat) : String := ⟨natStrAux (n + 1) n []⟩

/-- Python's `str.split()` (no argument): maximal nonempty runs of
non-whitespace characters. -/
def wordsAux : List Char → List Char → List (List Char)
  | [], acc => if acc = [] then [] else [acc.reverse]
  | c :: t, acc =>
    if c.isWhitespace then
      if acc = [] then wordsAux t [] else acc.reverse :: wordsAux t []
    else wordsAux t (c :: acc)

/-- Join character lists with single spaces (`' '.join(...)`). -/
def joinSpace : List (List Char) → List Char
  | [] => []
  | [w] => w
  | w :: ws => w ++ ' ' :: joinSpace ws

/-- Python's `str.split(sep)` for a one-character separator: splits on
every occurrence, keeping empty parts. -/
def splitOnChar (sep : Char) : List Char → List (List Char)
  | [] => [[]]
  | c :: t =>
    if c = sep then [] :: splitOnChar sep t
    else
      match splitOnChar sep t with
      | h :: r => (c :: h) :: r
      | [] => [[c]]

/-- String-valued `splitOnChar`. -/
def splitStr (s : String) (sep : Char) : List String :=
  (splitOnChar sep s.toList).map String.mk

/-- Search for the literal segments in order (the semantics of
`re.search` on a pattern of the form `lit₀.*lit₁.*…`). -/
def searchSegs : List (List Char) → List Char → Bool
  | [], _ => true
  | s :: rest, hay =>
    match findDrop s hay with
    | none => false
    | some rem => searchSegs rest rem

/-- Split a regex body into its literal segments: `.*` separates
segments, a backslash escapes the next character (as in the output of
`re.escape`). -/
def splitSegs : List Char → List Char → List (List Char)
  | [], acc => [acc.reverse]
  | '\\' :: c :: rest, acc => splitSegs rest (c :: acc)
  | ['\\'], acc => [('\\' :: acc).reverse]
  | '.' :: '*' :: rest, acc => acc.reverse :: splitSegs rest []
  | c :: rest, acc => splitSegs rest (c :: acc)

/-- Embedding of `re.search(pattern, text)` for the pattern dialect used
by the repository: an optional `(?i)` flag followed by literal segments
separated by `.*`. -/
def matchesPattern (pat text : String) : Bool :=
  match pat.toList with
  | '(' :: '?' :: 'i' :: ')' :: body =>
    searchSegs ((splitSegs body []).map lcLower) (lcLower text.toList)
  | cs => searchSegs (splitSegs cs []) text.toList

/-! ### Category configuration (`categorize.py`) -/

/-- One entry of the `categories` list in the category configuration. -/
structure CategoryDef where
  name : String
  emoji : String := ""
  keywords : List String := []
  patterns : List String := []
deriving Repr, DecidableEq, Inhabited

/-- The whole category configuration: category definitions plus the
MCC-code mapping (a JSON object, modelled as an association list). -/
structure CategoriesConfig where
  categories : List CategoryDef
  mcc_mappings : List (String × String) := []
deriving Repr, DecidableEq, Inhabited

/-- Embedding of `get_default_categories` from `categorize.py`: the
built-in category definitions, transcribed verbatim. -/
def get_default_categories : CategoriesConfig :=
  { categories :=
      [ { name := "groceries", emoji := "🛒",
          keywords := ["migros", "coop", "manor", "denner", "aldi", "lidl", "spar",
            "volg", "aperto", "supermarket", "grocery", "lebensmittel",
            "epicerie", "grocery"],
          patterns := ["(?i)migros.*", "(?i)coop.*", "(?i).*supermarkt.*",
            "(?i).*grocery.*"] },
        { name := "dining", emoji := "🍽️",
          keywords := ["restaurant", "cafe", "starbucks", "mcdonald", "burger king",
            "subway", "pizza", "kebab", "bistro", "bar", "pub",
            "takeaway", "delivery", "uber eats", "just eat"],
          patterns := ["(?i).*restaurant.*", "(?i).*cafe.*", "(?i).*pizza.*",
            "(?i)starbucks.*", "(?i)mc.*donald.*"] },
        { name := "transport", emoji := "🚃",
          keywords := ["sbb", "zvv", "tpg", "vbl", "uber", "taxi", "parking",
            "tankstelle", "petrol", "gas", "mobility", "car2go",
            "share now", "publibike", "lime", "bird", "tier"],
          patterns := ["(?i)sbb.*", "(?i)zvv.*", "(?i).*taxi.*", "(?i).*parking.*",
            "(?i).*tankstelle.*", "(?i)uber.*"] },
        { name := "shopping", emoji := "🛍️",
          keywords := ["amazon", "zalando", "h&m", "zara", "manor", "globus",
            "interdiscount", "digitec", "galaxus", "media markt",
            "ikea", "bauhaus", "obi", "landi", "jumbo"],
          patterns := ["(?i)amazon.*", "(?i)zalando.*", "(?i)digitec.*",
            "(?i)galaxus.*"] },
        { name := "subscriptions", emoji := "📺",
          keywords := ["netflix", "spotify", "apple", "google", "microsoft",
            "adobe", "dropbox", "icloud", "youtube", "prime",
            "disney", "swisscom", "sunrise", "salt", "upc"],
          patterns := ["(?i)netflix.*", "(?i)spotify.*", "(?i)apple.*subscription.*",
            "(?i).*monthly.*", "(?i).*subscription.*"] },
        { name := "utilities", emoji := "⚡",
          keywords := ["ewz", "swisscom", "sunrise", "salt", "swissgas",
            "energie", "electricity", "water", "heating", "internet",
            "phone", "mobile", "insurance", "versicherung"],
          patterns := ["(?i).*energie.*", "(?i).*electricity.*",
            "(?i).*versicherung.*", "(?i).*insurance.*"] },
        { name := "entertainment", emoji := "🎮",
          keywords := ["cinema", "kino", "theater", "concert", "tickets",
            "steam", "playstation", "xbox", "nintendo", "game",
            "ticketcorner", "starticket", "eventim"],
          patterns := ["(?i).*cinema.*", "(?i).*kino.*", "(?i).*tickets.*",
            "(?i)steam.*"] },
        { name := "health", emoji := "🏥",
          keywords := ["pharmacy", "apotheke", "doctor", "dentist", "hospital",
            "zahnarzt", "arzt", "medizin", "fitness", "gym",
            "physiotherapy", "massage"],
          patterns := ["(?i).*apotheke.*", "(?i).*pharmacy.*", "(?i).*medical.*",
            "(?i).*fitness.*"] },
        { name := "housing", emoji := "🏠",
          keywords := ["rent", "miete", "mortgage", "hypothek", "utilities",
            "cleaning", "maintenance", "repairs", "furniture"],
          patterns := ["(?i).*miete.*", "(?i).*rent.*", "(?i).*hypothek.*"] },
        { name := "transfers", emoji := "↔️",
          keywords := ["twint", "transfer", "überweisung", "paypal", "revolut",
            "wise", "westernunion", "bank transfer"],
          patterns := ["(?i)twint.*", "(?i).*transfer.*", "(?i).*überweisung.*"] } ],
    mcc_mappings :=
      [ ("5411", "groceries"), ("5812", "dining"), ("5814", "dining"),
        ("4111", "transport"), ("4121", "transport"), ("5541", "transport"),
        ("5300", "shopping"), ("5651", "shopping"), ("5732", "shopping"),
        ("4899", "utilities"), ("5968", "entertainment") ] }

/-- Embedding of `load_categories`: the repository ships no
`config/categories.json`, so the `FileNotFoundError` fallback applies and
the default definitions are returned. -/
def load_categories : CategoriesConfig := get_default_categories

/-! ### Transactions (rows of the `transactions` table, as the Python
code reads them: a dict whose entries may be missing or `None`,
modelled with `Option` fields). -/

structure Txn where
  id : String := ""
  creditor_name : Option String := none
  debtor_name : Option String := none
  description : Option String := none
  amount : Option Rat := none
  mcc_code : Option String := none
  booking_date : Option String := none
  category : Option String := none
  category_source : Option String := none
deriving Repr, DecidableEq, Inhabited

/-- The combined lowercased text `f"{creditor} {debtor} {description}".lower()`
built by `categorize_transaction`; missing or `None` fields read as `''`. -/
def combinedText (t : Txn) : String :=
  pyLower ((t.creditor_name.getD "") ++ " " ++ (t.debtor_name.getD "") ++ " "
    ++ (t.description.getD ""))

/-- Step 3 of the cascade: walk the category list in order; within each
category first try every regex pattern, then every (lowercased) keyword
as a substring of the combined text. -/
def findCategory (cats : List CategoryDef) (text : String) : Option String :=
  cats.findSome? fun cd =>
    if cd.patterns.any (fun p => matchesPattern p text) then some cd.name
    else if cd.keywords.any (fun k => listInfix (lcLower k.toList) text.toList) then
      some cd.name
    else none

/-- Step 4 of the cascade: the MCC lookup (`if mcc_code:` — an empty
string is falsy in Python — then a dict lookup). -/
def mccCategory (t : Txn) (cfg : CategoriesConfig) : Option String :=
  match t.mcc_code with
  | some m => if m ≠ "" then cfg.mcc_mappings.lookup m else none
  | none => none

/-- The fee-related keywords of the small-amount heuristic. -/
def feeWords : List String := ["fee", "gebühr", "charge"]

/-- Is the year a leap year (Gregorian)? -/
def isLeap (y : Nat) : Bool := (y % 4 = 0 && y % 100 != 0) || y % 400 = 0

/-- Days in a month of the Gregorian calendar. -/
def daysInMonth (y m : Nat) : Nat :=
  if m = 2 then (if isLeap y then 29 else 28)
  else if m = 4 ∨ m = 6 ∨ m = 9 ∨ m = 11 then 30
  else 31

/-- Serial day number of a civil date (Hinnant's `days_from_civil`,
shifted so that it is a `Nat` for years ≥ 1). -/
def daysFromCivil (y m d : Nat) : Nat :=
  let y' := if m ≤ 2 then y - 1 else y
  let era := y' / 400
  let yoe := y' % 400
  let mp := (m + 9) % 12
  let doy := (153 * mp + 2) / 5 + (d - 1)
  let doe := yoe * 365 + yoe / 4 - yoe / 100 + doy
  era * 146097 + doe

/-- Python's `date.weekday()`: Monday = 0 … Sunday = 6. -/
def pythonWeekday (y m d : Nat) : Nat := (daysFromCivil y m d + 2) % 7

/-- Parse a strict `YYYY-MM-DD` string (the shape produced by
`date.isoformat()`, which is what the database stores); `none` on
anything malformed, mirroring `datetime.fromisoformat` raising
`ValueError`. -/
def parseIsoDate (s : String) : Option (Nat × Nat × Nat) :=
  match s.toList with
  | [y1, y2, y3, y4, s1, m1, m2, s2, d1, d2] =>
    if ([y1, y2, y3, y4, m1, m2, d1, d2].all Char.isDigit) ∧ s1 = '-' ∧ s2 = '-' then
      let y := ((y1.toNat - 48) * 1000 + (y2.toNat - 48) * 100
        + (y3.toNat - 48) * 10 + (y4.toNat - 48))
      let m := (m1.toNat - 48) * 10 + (m2.toNat - 48)
      let d := (d1.toNat - 48) * 10 + (d2.toNat - 48)
      if 1 ≤ y ∧ 1 ≤ m ∧ m ≤ 12 ∧ 1 ≤ d ∧ d ≤ daysInMonth y m then some (y, m, d)
      else none
    else none
  | _ => none

/-- Embedding of `categorize_transaction` from `categorize.py`: the
seven-step cascade (user override, pattern/keyword matching, MCC
mapping, amount heuristics, weekend heuristic, `other` default). -/
def categorize_transaction (t : Txn) : String :=
  if t.category_source = some "user" then t.category.getD "other"
  else
    let text := combinedText t
    let cfg := load_categories
    match findCategory cfg.categories text with
    | some c => c
    | none =>
      match mccCategory t cfg with
      | some c => c
      | none =>
        let amount : Rat := t.amount.getD 0
        if 0 < amount then
          if 1000 < amount then "income" else "transfers"
        else
          let a : Rat := |amount|
          if a < 5 then
            if feeWords.any (fun w => listInfix w.toList text.toList) then "utilities"
            else "subscriptions"
          else if 1000 < a then "housing"
          else
            let bd := t.booking_date.getD ""
            if bd ≠ "" then
              match parseIsoDate bd with
              | some (y, m, d) =>
                if 5 ≤ pythonWeekday y m d ∧ 20 ≤ a ∧ a ≤ 150 then "dining" else "other"
              | none => "other"
            else "other"

/-! ### Database operations used by the categorization engine (`db.py`)

The `transactions` table is modelled as a `List Txn`; `id` is the
primary key, so well-formed states have pairwise-distinct ids.  The
`date('now', '-N days')` cutoff of `get_recent_transactions` is passed
in as an explicit ISO date string; SQLite compares ISO dates
lexicographically, which is `String` order here. -/

/-- Embedding of `get_recent_transactions` (`db.py`): recent
transactions whose `category` is `NULL`.  The `ORDER BY` clause is
dropped: no property below depends on row order. -/
def get_recent_transactions (cutoff : String) (db : List Txn) : List Txn :=
  db.filter fun t =>
    (match t.booking_date with
     | some d => decide (cutoff ≤ d)
     | none => false)
    && t.category == none

/-- Embedding of `update_transaction_categories` (`db.py`): for each
`(id, category)` pair run
`UPDATE transactions SET category = ?, category_source = 'auto' WHERE id = ?`. -/
def update_transaction_categories (ups : List (String × String)) (db : List Txn) :
    List Txn :=
  ups.foldl
    (fun acc p =>
      acc.map fun t =>
        if t.id = p.1 then
          { t with category := some p.2, category_source := some "auto" }
        else t)
    db

/-- Embedding of `auto_categorize_recent` (`categorize.py`): categorize
the recent `category IS NULL` transactions and bulk-update every result
that is truthy and not `'other'`.  Returns the number of updates and the
new table state.  (`category_updates` is a dict keyed by transaction id;
with distinct ids it is this association list.) -/
def auto_categorize_recent (cutoff : String) (db : List Txn) : Nat × List Txn :=
  let txns := get_recent_transactions cutoff db
  if txns = [] then (0, db)
  else
    let ups := txns.filterMap fun t =>
      let c := categorize_transaction t
      if c ≠ "" ∧ c ≠ "other" then some (t.id, c) else none
    let db' := if ups = [] then db else update_transaction_categories ups db
    (ups.length, db')

/-- Embedding of `categorize_batch` (`categorize.py`): a pure map from
transaction id to computed category; it performs no database write. -/
def categorize_batch (ts : List Txn) : List (String × String) :=
  ts.map fun t => (t.id, categorize_transaction t)

/-! ### Merchant rule addition (`add_merchant_rule`)

The persisted `categories.json` is the `CategoriesConfig` state; the
function returns the success flag and the new state (on `False` the file
is left untouched, which the state-passing form reflects). -/

/-- Characters escaped by Python's `re.escape` (CPython's
`_special_chars_map`). -/
def reSpecialChars : List Char :=
  ['(', ')', '[', ']', Char.ofNat 123, Char.ofNat 125, '?', '*', '+', '-',
   '|', '^', '$', '\\', '.', '&', '~', '#', ' ', '\t', '\n', '\r',
   Char.ofNat 11, Char.ofNat 12]

/-- Embedding of `re.escape`. -/
def reEscape (s : String) : String :=
  ⟨s.toList.flatMap fun c => if c ∈ reSpecialChars then ['\\', c] else [c]⟩

/-- The pattern string `f"(?i).*{re.escape(merchant_pattern)}.*"` built
by `add_merchant_rule`. -/
def merchantPattern (merchant : String) : String :=
  "(?i).*" ++ reEscape merchant ++ ".*"

/-- The loop of `add_merchant_rule`: find the first category whose name
equals the lowercased requested name, append the pattern to it unless
already present, and stop. -/
def addRuleToCats (pattern low : String) : List CategoryDef → Bool × List CategoryDef
  | [] => (false, [])
  | cd :: rest =>
    if cd.name = low then
      let pats := if pattern ∈ cd.patterns then cd.patterns
                  else cd.patterns ++ [pattern]
      (true, { cd with patterns := pats } :: rest)
    else
      let r := addRuleToCats pattern low rest
      (r.1, cd :: r.2)

/-- Embedding of `add_merchant_rule` (`categorize.py`). -/
def add_merchant_rule (merchant category : String) (config : CategoriesConfig) :
    Bool × CategoriesConfig :=
  let r := addRuleToCats (merchantPattern merchant) (pyLower category) config.categories
  (r.1, { config with categories := r.2 })

/-! ### Amount parsing (`csv_import.py`, `parse_amount`)

Python floats are embedded as rationals.  `float(value)` is modelled by
`parseFloat?` on finite decimal literals (optional sign, digits with
Python's single-underscore grouping, optional fraction, optional
exponent); the non-finite literals `inf`/`nan` have no rational value
and are outside the embedding. -/

/-- The currency codes stripped by `parse_amount` (all three letters). -/
def currencyCodes : List String :=
  ["EUR", "USD", "GBP", "CHF", "JPY", "CAD", "AUD", "SEK", "NOK", "DKK",
   "PLN", "CZK", "HUF"]

/-- Strip a leading currency code and following whitespace
(`re.sub(r'^(EUR|...)\s*', '', value, flags=re.IGNORECASE)`). -/
def dropCurrencyPre (s : String) : String :=
  if currencyCodes.any (fun c => strStartsWith (pyUpper s) c) then
    ⟨(s.toList.drop 3).dropWhile Char.isWhitespace⟩
  else s

/-- Strip a trailing currency code and preceding whitespace
(`re.sub(r'\s*(EUR|...)$', '', value, flags=re.IGNORECASE)`). -/
def dropCurrencySuf (s : String) : String :=
  if currencyCodes.any (fun c => strEndsWith (pyUpper s) c) then
    ⟨((s.toList.reverse.drop 3).dropWhile Char.isWhitespace).reverse⟩
  else s

/-- The currency symbols removed by `re.sub(r'[€$£¥₣\s]', '', value)`. -/
def currencySymbols : List Char := ['€', '$', '£', '¥', '₣']

/-- Remove currency symbols and whitespace. -/
def stripSymbols (s : String) : String :=
  ⟨s.toList.filter fun c => ¬(c ∈ currencySymbols ∨ c.isWhitespace)⟩

/-- Thousand/decimal separator normalization: with separator `,` drop
dots and turn commas into dots; otherwise drop commas. -/
def sepNormalize (s : String) (sep : Char) : String :=
  if sep = ',' then
    ⟨(s.toList.filter (· ≠ '.')).map fun c => if c = ',' then '.' else c⟩
  else ⟨s.toList.filter (· ≠ ',')⟩

/-- Parenthesized negatives: `(x)` becomes `-x`. -/
def parenNegate (s : String) : String :=
  if strStartsWith s "(" ∧ strEndsWith s ")" then
    "-" ++ strDropRight (strDrop s 1) 1
  else s

/-- CR/DR suffix handling: `...CR` keeps the value, `...DR` negates it. -/
def crdrNormalize (s : String) : String :=
  if strEndsWith (pyUpper s) "CR" then strDropRight s 2
  else if strEndsWith (pyUpper s) "DR" then "-" ++ strDropRight s 2
  else s

/-- The cleaning pipeline of `parse_amount` before the final `float()`
call, in source order. -/
def cleanAmountValue (value : String) (sep : Char) : String :=
  crdrNormalize (parenNegate (sepNormalize
    (stripSymbols (dropCurrencySuf (dropCurrencyPre (pyStrip value)))) sep))

/-- Numeric value of a digit list. -/
def digitsVal (ds : List Char) : Nat := ds.foldl (fun n c => n * 10 + (c.toNat - 48)) 0

/-- Take a maximal run of digits allowing Python's single-underscore
digit grouping; returns the digits (without underscores) and the rest. -/
def takeDigitsU : List Char → List Char × List Char
  | [] => ([], [])
  | c :: '_' :: c2 :: rest2 =>
    if c.isDigit then
      if c2.isDigit then
        let r := takeDigitsU (c2 :: rest2)
        (c :: r.1, r.2)
      else ([c], '_' :: c2 :: rest2)
    else ([], c :: '_' :: c2 :: rest2)
  | c :: rest =>
    if c.isDigit then
      let r := takeDigitsU rest
      (c :: r.1, r.2)
    else ([], c :: rest)

/-- Embedding of Python's `float()` on finite decimal literals.  The
value `± (ip.fp) · 10^(±exp)` is assembled as a single normalized
fraction. -/
def parseFloat? (s : String) : Option Rat :=
  let cs := s.toList
  let sgn : Bool × List Char :=
    match cs with
    | '-' :: t => (true, t)
    | '+' :: t => (false, t)
    | t => (false, t)
  let (neg, cs) := sgn
  let (ip, cs) := takeDigitsU cs
  let fracRes : List Char × List Char :=
    match cs with
    | '.' :: t => takeDigitsU t
    | t => ([], t)
  let (fp, cs) := fracRes
  if ip = [] ∧ fp = [] then none
  else
    let mantNum := digitsVal ip * 10 ^ fp.length + digitsVal fp
    let mantDen := 10 ^ fp.length
    let build : Nat → Nat → Rat := fun num den =>
      if neg then Rat.neg (mkRat (Int.ofNat num) den) else mkRat (Int.ofNat num) den
    match cs with
    | [] => some (build mantNum mantDen)
    | 'e' :: t | 'E' :: t =>
      let esgn : Bool × List Char :=
        match t with
        | '-' :: t2 => (true, t2)
        | '+' :: t2 => (false, t2)
        | t2 => (false, t2)
      let (eneg, t) := esgn
      let (ed, t) := takeDigitsU t
      if ed = [] ∨ t ≠ [] then none
      else
        let k := 10 ^ digitsVal ed
        some (if eneg then build mantNum (mantDen * k) else build (mantNum * k) mantDen)
    | _ => none

/-- Embedding of `parse_amount` (`csv_import.py`): empty or unparsable
input yields `0.0`; the function is total (never raises). -/
def parse_amount (value : String) (sep : Char) : Rat :=
  if pyStrip value = "" then 0
  else
    match parseFloat? (cleanAmountValue value sep) with
    | some v => v
    | none => 0

/-! ### Date parsing (`csv_import.py`, `parse_date`) -/

/-- A parsed calendar date. -/
structure Date where
  year : Nat
  month : Nat
  day : Nat
deriving Repr, DecidableEq, Inhabited

/-- Left-pad a number with zeros to the given width. -/
def padNum (w n : Nat) : String :=
  let s := natStr n
  String.mk (List.replicate (w - s.length) '0') ++ s

/-- Python's `date.isoformat()`. -/
def Date.iso (d : Date) : String :=
  padNum 4 d.year ++ "-" ++ padNum 2 d.month ++ "-" ++ padNum 2 d.day

/-- Range-check a date, as `datetime.strptime` does. -/
def mkValidDate (y m d : Nat) : Option Date :=
  if 1 ≤ y ∧ y ≤ 9999 ∧ 1 ≤ m ∧ m ≤ 12 ∧ 1 ≤ d ∧ d ≤ daysInMonth y m then
    some ⟨y, m, d⟩
  else none

/-- The `strptime` format strings used by the bank format table, as an
enumeration (day/month fields accept 1–2 digits, `%Y` exactly 4, `%y`
exactly 2, mirroring CPython's `_strptime` regexes). -/
inductive DateFmt
  | ymdDash   -- %Y-%m-%d
  | dmyDot    -- %d.%m.%Y
  | dmySlash  -- %d/%m/%Y
  | mdySlash  -- %m/%d/%Y
  | dmyDash   -- %d-%m-%Y
  | dmyDot2   -- %d.%m.%y
  | dmySlash2 -- %d/%m/%y
deriving Repr, DecidableEq, Inhabited

/-- Parse one all-digit component with length in `[lo, hi]`. -/
def comp (s : String) (lo hi : Nat) : Option Nat :=
  let cs := s.toList
  if cs ≠ [] ∧ cs.all Char.isDigit ∧ lo ≤ cs.length ∧ cs.length ≤ hi then
    some (digitsVal cs)
  else none

/-- CPython's two-digit-year pivot (`%y`): 69–99 → 1900s, 00–68 → 2000s. -/
def expandY2 (yy : Nat) : Nat := if yy ≤ 68 then 2000 + yy else 1900 + yy

/-- Run one `strptime` format. -/
def runDateFmt : DateFmt → String → Option Date
  | .ymdDash, s =>
    match splitStr s '-' with
    | [ys, ms, ds] =>
      (comp ys 4 4).bind fun y => (comp ms 1 2).bind fun m =>
        (comp ds 1 2).bind fun d => mkValidDate y m d
    | _ => none
  | .dmyDot, s =>
    match splitStr s '.' with
    | [ds, ms, ys] =>
      (comp ds 1 2).bind fun d => (comp ms 1 2).bind fun m =>
        (comp ys 4 4).bind fun y => mkValidDate y m d
    | _ => none
  | .dmySlash, s =>
    match splitStr s '/' with
    | [ds, ms, ys] =>
      (comp ds 1 2).bind fun d => (comp ms 1 2).bind fun m =>
        (comp ys 4 4).bind fun y => mkValidDate y m d
    | _ => none
  | .mdySlash, s =>
    match splitStr s '/' with
    | [ms, ds, ys] =>
      (comp ms 1 2).bind fun m => (comp ds 1 2).bind fun d =>
        (comp ys 4 4).bind fun y => mkValidDate y m d
    | _ => none
  | .dmyDash, s =>
    match splitStr s '-' with
    | [ds, ms, ys] =>
      (comp ds 1 2).bind fun d => (comp ms 1 2).bind fun m =>
        (comp ys 4 4).bind fun y => mkValidDate y m d
    | _ => none
  | .dmyDot2, s =>
    match splitStr s '.' with
    | [ds, ms, ys] =>
      (comp ds 1 2).bind fun d => (comp ms 1 2).bind fun m =>
        (comp ys 2 2).bind fun yy => mkValidDate (expandY2 yy) m d
    | _ => none
  | .dmySlash2, s =>
    match splitStr s '/' with
    | [ds, ms, ys] =>
      (comp ds 1 2).bind fun d => (comp ms 1 2).bind fun m =>
        (comp ys 2 2).bind fun yy => mkValidDate (expandY2 yy) m d
    | _ => none

/-- The `datetime.fromisoformat` fallback of `parse_date`, restricted to
its date part: a valid `YYYY-MM-DD` head, either alone or followed by a
`T`/space time section (time-of-day validation is not modelled; the
repository only stores bare dates). -/
def isoFallbackDate (v : String) : Option Date :=
  match parseIsoDate (strTake v 10) with
  | some (y, m, d) =>
    if v.length = 10 ∨ v.toList.getD 10 ' ' = 'T' ∨ v.toList.getD 10 ' ' = ' ' then
      some ⟨y, m, d⟩
    else none
  | none => none

/-- Embedding of `parse_date` (`csv_import.py`): try each format in
order, then the ISO fallback; `none` for empty or unparseable input. -/
def parse_date (value : String) (fmts : List DateFmt) : Option Date :=
  if pyStrip value = "" then none
  else
    let v := pyStrip value
    match fmts.findSome? (fun f => runDateFmt f v) with
    | some d => some d
    | none => isoFallbackDate v

/-! ### Column detection (`find_column`) -/

/-- Embedding of `find_column`: first candidate (in order) whose
lowercased, stripped name occurs among the lowercased, stripped headers;
returns that header's index. -/
def find_column (headers candidates : List String) : Option Nat :=
  let hl := headers.map fun h => pyStrip (pyLower h)
  candidates.findSome? fun c => hl.findIdx? (· = pyStrip (pyLower c))

/-! ### MD5 (`hashlib.md5`)

`create_transaction_hash` digests the key with MD5.  32-bit words are
`Nat`s reduced `% 2^32`. -/

/-- 2^32. -/
def m32 : Nat := 4294967296

/-- Rotate a 32-bit word left by `n`. -/
def rotl32 (x n : Nat) : Nat := ((x <<< n) % m32) ||| (x >>> (32 - n))

/-- The 64 MD5 round constants `⌊|sin(i+1)|·2^32⌋`. -/
def md5K : List Nat :=
  [0xd76aa478, 0xe8c7b756, 0x242070db, 0xc1bdceee,
   0xf57c0faf, 0x4787c62a, 0xa8304613, 0xfd469501,
   0x698098d8, 0x8b44f7af, 0xffff5bb1, 0x895cd7be,
   0x6b901122, 0xfd987193, 0xa679438e, 0x49b40821,
   0xf61e2562, 0xc040b340, 0x265e5a51, 0xe9b6c7aa,
   0xd62f105d, 0x02441453, 0xd8a1e681, 0xe7d3fbc8,
   0x21e1cde6, 0xc33707d6, 0xf4d50d87, 0x455a14ed,
   0xa9e3e905, 0xfcefa3f8, 0x676f02d9, 0x8d2a4c8a,
   0xfffa3942, 0x8771f681, 0x6d9d6122, 0xfde5380c,
   0xa4beea44, 0x4bdecfa9, 0xf6bb4b60, 0xbebfbc70,
   0x289b7ec6, 0xeaa127fa, 0xd4ef3085, 0x04881d05,
   0xd9d4d039, 0xe6db99e5, 0x1fa27cf8, 0xc4ac5665,
   0xf4292244, 0x432aff97, 0xab9423a7, 0xfc93a039,
   0x655b59c3, 0x8f0ccc92, 0xffeff47d, 0x85845dd1,
   0x6fa87e4f, 0xfe2ce6e0, 0xa3014314, 0x4e0811a1,
   0xf7537e82, 0xbd3af235, 0x2ad7d2bb, 0xeb86d391]

/-- The 64 per-round left-rotation amounts. -/
def md5S : List Nat :=
  [7, 12, 17, 22, 7, 12, 17, 22, 7, 12, 17, 22, 7, 12, 17, 22,
   5, 9, 14, 20, 5, 9, 14, 20, 5, 9, 14, 20, 5, 9, 14, 20,
   4, 11, 16, 23, 4, 11, 16, 23, 4, 11, 16, 23, 4, 11, 16, 23,
   6, 10, 15, 21, 6, 10, 15, 21, 6, 10, 15, 21, 6, 10, 15, 21]

/-- Little-endian 32-bit word `i` of a 64-byte chunk. -/
def leWord (chunk : List Nat) (i : Nat) : Nat :=
  chunk.getD (4 * i) 0 + chunk.getD (4 * i + 1) 0 * 256
    + chunk.getD (4 * i + 2) 0 * 65536 + chunk.getD (4 * i + 3) 0 * 16777216

/-- One MD5 round. -/
def md5Round (chunk : List Nat) (st : Nat × Nat × Nat × Nat) (i : Nat) :
    Nat × Nat × Nat × Nat :=
  let (a, b, c, d) := st
  let fg : Nat × Nat :=
    if i < 16 then ((b &&& c) ||| ((b ^^^ 0xffffffff) &&& d), i)
    else if i < 32 then ((d &&& b) ||| ((d ^^^ 0xffffffff) &&& c), (5 * i + 1) % 16)
    else if i < 48 then (b ^^^ c ^^^ d, (3 * i + 5) % 16)
    else (c ^^^ (b ||| (d ^^^ 0xffffffff)), (7 * i) % 16)
  let tmp := (a + fg.1 + md5K.getD i 0 + leWord chunk fg.2) % m32
  (d, (b + rotl32 tmp (md5S.getD i 0)) % m32, b, c)

/-- Process one 64-byte chunk. -/
def md5Chunk (st : Nat × Nat × Nat × Nat) (chunk : List Nat) :
    Nat × Nat × Nat × Nat :=
  let r := (List.range 64).foldl (md5Round chunk) st
  ((st.1 + r.1) % m32, (st.2.1 + r.2.1) % m32,
   (st.2.2.1 + r.2.2.1) % m32, (st.2.2.2 + r.2.2.2) % m32)

/-- Process all chunks (fuel-driven; call with `fuel = bytes.length`). -/
def md5Chunks : Nat → Nat × Nat × Nat × Nat → List Nat → Nat × Nat × Nat × Nat
  | 0, st, _ => st
  | _ + 1, st, [] => st
  | fuel + 1, st, bytes => md5Chunks fuel (md5Chunk st (bytes.take 64)) (bytes.drop 64)

/-- Little-endian byte decomposition, `n` bytes wide. -/
def leBytes : Nat → Nat → List Nat
  | 0, _ => []
  | n + 1, x => x % 256 :: leBytes n (x / 256)

/-- MD5 padding: `0x80`, zeros to 56 mod 64, 64-bit little-endian bit length. -/
def md5Pad (msg : List Nat) : List Nat :=
  let len := msg.length
  let z := (119 - len % 64) % 64
  msg ++ [128] ++ List.replicate z 0 ++ leBytes 8 ((len * 8) % 18446744073709551616)

/-- UTF-8 encoding of a Unicode code point. -/
def utf8Encode (n : Nat) : List Nat :=
  if n < 128 then [n]
  else if n < 2048 then [192 + n / 64, 128 + n % 64]
  else if n < 65536 then [224 + n / 4096, 128 + n / 64 % 64, 128 + n % 64]
  else [240 + n / 262144, 128 + n / 4096 % 64, 128 + n / 64 % 64, 128 + n % 64]

/-- UTF-8 byte sequence of a string (`str.encode('utf-8')`). -/
def strBytes (s : String) : List Nat := s.toList.flatMap fun c => utf8Encode c.toNat

/-- Lowercase hex digit. -/
def hexDigitChar (n : Nat) : Char :=
  if n < 10 then Char.ofNat (48 + n) else Char.ofNat (87 + n)

/-- Two lowercase hex digits of a byte. -/
def byteHex (b : Nat) : List Char := [hexDigitChar (b / 16), hexDigitChar (b % 16)]

/-- MD5 hex digest of a string (`hashlib.md5(s.encode('utf-8')).hexdigest()`). -/
def md5hex (s : String) : String :=
  let bytes := md5Pad (strBytes s)
  let r := md5Chunks bytes.length (0x67452301, 0xefcdab89, 0x98badcfe, 0x10325476) bytes
  ⟨([r.1, r.2.1, r.2.2.1, r.2.2.2].flatMap (leBytes 4)).flatMap byteHex⟩

/-! ### Transaction hashing (`create_transaction_hash`) -/

/-- Description normalization: `' '.join(description.lower().split())` —
lowercase, split on whitespace runs, re-join with single spaces. -/
def normalizeDesc (s : String) : String :=
  ⟨joinSpace (wordsAux (lcLower s.toList) [])⟩

/-- Round a rational to the nearest integer, ties to even (the rounding
of Python's fixed-point float formatting). -/
def roundHalfEven (q : Rat) : Int :=
  let f := q.floor
  let r : Rat := mkRat (q.num - f * Int.ofNat q.den) q.den
  if r < mkRat 1 2 then f
  else if mkRat 1 2 < r then f + 1
  else if f % 2 = 0 then f else f + 1

/-- Python's `f"{amount:.2f}"` on the rational embedding of the float:
sign (a negative value rounding to zero keeps its minus sign), integer
part, dot, two fraction digits. -/
def formatAmount2 (x : Rat) : String :=
  let n := roundHalfEven (mkRat (x.num * 100) x.den)
  let i := n.natAbs
  (if x < 0 then "-" else "") ++ natStr (i / 100) ++ "."
    ++ (if i % 100 < 10 then "0" else "") ++ natStr (i % 100)

/-- Embedding of `create_transaction_hash` (`csv_import.py`): MD5 of
`account_id|date|amount-to-2-decimals|normalized-description`. -/
def create_transaction_hash (account_id booking_date : String) (amount : Rat)
    (description : String) : String :=
  md5hex (account_id ++ "|" ++ booking_date ++ "|" ++ formatAmount2 amount ++ "|"
    ++ normalizeDesc description)

/-! ### The import pipeline (`import_csv`)

The CSV text has already been split into rows of cells (`csv.reader` is
the library boundary); the first row is the header row.  The SQLite
state is an `ImportDB`: the `accounts` table rows that
`store_csv_account` touches, and the `transactions` table with `id` as
primary key (`INSERT OR IGNORE` inserts only a fresh id).  The function
returns the typed result (`Except CSVImportError`) together with the new
state; the state is returned unchanged on the error path, which is where
the code raises before any write. -/

/-- A single quote character, for building error messages. -/
def sq : String := String.singleton (Char.ofNat 39)

/-- An in-memory parsed transaction (the dict built by the row loop). -/
structure ParsedTxn where
  id : String
  account_id : String
  booking_date : String
  amount : Rat
  currency : String
  description : String
  raw_row : List String
deriving Repr, DecidableEq, Inhabited

/-- A stored row of the `transactions` table as `import_csv` writes it
(`category_source = 'pending'`, category left `NULL`). -/
structure StoredTxn where
  id : String
  account_id : String
  booking_date : String
  amount : Rat
  currency : String
  description : String
  category_source : String := "pending"
deriving Repr, DecidableEq, Inhabited

/-- One entry of the duplicate-details list. -/
structure DupEntry where
  row : Nat
  date : String
  amount : Rat
  description : String
deriving Repr, DecidableEq, Inhabited

/-- The database state touched by `import_csv`. -/
structure ImportDB where
  accounts : List (String × String × String) := []
  transactions : List StoredTxn := []
deriving Repr, DecidableEq, Inhabited

/-- The typed structural import error (`class CSVImportError(Exception)`). -/
structure CSVImportError where
  msg : String
deriving Repr, DecidableEq, Inhabited

/-- A bank format entry (the fields of `BANK_FORMATS` that the row
pipeline uses; delimiter and encoding belong to the `csv.reader`
boundary). -/
structure FormatConfig where
  name : String
  date_column : List String
  amount_column : List String
  description_column : List String
  date_formats : List DateFmt
  decimal_separator : Char
deriving Repr, Inhabited

/-- The column indices resolved from the header row. -/
structure Cols where
  dateCol : Nat
  amountCol : Nat
  descCol : Option Nat
  debitCol : Option Nat
  creditCol : Option Nat
  dateFormats : List DateFmt
  decSep : Char
deriving Repr, Inhabited

/-- The candidate names scanned for a separate debit column. -/
def debitCandidates : List String :=
  ["Debit", "Lastschrift", "Débit", "Money Out", "Paid Out", "Debit Amount"]

/-- The candidate names scanned for a separate credit column. -/
def creditCandidates : List String :=
  ["Credit", "Gutschrift", "Crédit", "Money In", "Paid In", "Credit Amount"]

/-- First matching debit column, in candidate order. -/
def debitColOf (headers : List String) : Option Nat :=
  debitCandidates.findSome? fun n => find_column headers [n]

/-- First matching credit column, in candidate order. -/
def creditColOf (headers : List String) : Option Nat :=
  creditCandidates.findSome? fun n => find_column headers [n]

/-- The amount of one row: either the separate debit/credit columns
(`credit - debit if credit else -abs(debit)`) or the single amount
column. -/
def rowAmount (cols : Cols) (row : List String) : Rat :=
  match cols.debitCol, cols.creditCol with
  | some dc, some cc =>
    let debit := parse_amount (if dc < row.length then row.getD dc "" else "") cols.decSep
    let credit := parse_amount (if cc < row.length then row.getD cc "" else "") cols.decSep
    if credit ≠ 0 then credit - debit else -|debit|
  | _, _ => parse_amount (row.getD cols.amountCol "") cols.decSep

/-- The description of one row:
`row[desc_col].strip() if desc_col and desc_col < len(row) else ''`
(note that both a missing column and column index 0 are falsy). -/
def rowDesc (cols : Cols) (row : List String) : String :=
  match cols.descCol with
  | some dc => if dc ≠ 0 ∧ dc < row.length then pyStrip (row.getD dc "") else ""
  | none => ""

/-- Accumulated output of the row loop. -/
structure RowResult where
  transactions : List ParsedTxn := []
  duplicates : List DupEntry := []
  errors : List String := []
deriving Repr, DecidableEq, Inhabited

/-- The row loop of `import_csv`: skip rows shorter than the mandatory
columns require, record an error and skip on an unparseable date, skip
zero amounts, record duplicates against the known-id set, and otherwise
emit a transaction and extend the known-id set.  `rowNum` starts at 1
(the header row) and is incremented before each data row. -/
def processRows (acct currency : String) (cols : Cols) :
    List (List String) → List String → Nat → RowResult
  | [], _, _ => {}
  | row :: rest, known, rowNum =>
    let n := rowNum + 1
    if row.length ≤ max cols.dateCol cols.amountCol then
      processRows acct currency cols rest known n
    else
      let dateStr := pyStrip (row.getD cols.dateCol "")
      match parse_date dateStr cols.dateFormats with
      | none =>
        let r := processRows acct currency cols rest known n
        { r with errors :=
            ("Row " ++ natStr n ++ ": Could not parse date " ++ sq ++ dateStr ++ sq)
              :: r.errors }
      | some bd =>
        let amount := rowAmount cols row
        if amount = 0 then processRows acct currency cols rest known n
        else
          let description := rowDesc cols row
          let h := create_transaction_hash acct bd.iso amount description
          if h ∈ known then
            let r := processRows acct currency cols rest known n
            { r with duplicates := ⟨n, bd.iso, amount, strTake description 50⟩ :: r.duplicates }
          else
            let r := processRows acct currency cols rest (h :: known) n
            { r with transactions :=
                ⟨h, acct, bd.iso, amount, currency, description, row⟩ :: r.transactions }

/-- `INSERT OR IGNORE INTO transactions` keyed on the primary key `id`. -/
def insertTxn (ts : List StoredTxn) (t : ParsedTxn) : List StoredTxn :=
  if ts.any (fun s => s.id = t.id) then ts
  else ts ++ [{ id := t.id, account_id := t.account_id, booking_date := t.booking_date,
                amount := t.amount, currency := t.currency, description := t.description }]

/-- The stored row corresponding to a parsed transaction (the column
list of the `INSERT OR IGNORE` statement). -/
def storedOf (t : ParsedTxn) : StoredTxn :=
  { id := t.id, account_id := t.account_id, booking_date := t.booking_date,
    amount := t.amount, currency := t.currency, description := t.description }

/-- Embedding of `store_csv_account` (`db.py`): update the account row
if present, insert it otherwise. -/
def store_csv_account (accountId name currency : String)
    (accounts : List (String × String × String)) : List (String × String × String) :=
  if accounts.any (fun a => a.1 = accountId) then
    accounts.map fun a => if a.1 = accountId then (a.1, name, currency) else a
  else accounts ++ [(accountId, name, currency)]

/-- The result dict of a successful `import_csv` call. -/
structure ImportResult where
  success : Bool
  bank_name : String
  account_id : String
  account_name : Option String
  total_rows : Nat
  imported : Nat
  duplicates : Nat
  duplicate_details : List DupEntry
  errors : List String
  error_count : Nat
  transactions : List ParsedTxn
deriving Repr, DecidableEq, Inhabited

/-- Embedding of `import_csv` (`csv_import.py`): header handling, the
mandatory-column checks that raise `CSVImportError` before any row is
processed, the row loop seeded with the account's stored ids, then
account and transaction storage.  `imported` is `stored_count`, which
the code increments for every transaction it attempts to insert. -/
def importCsv (rows : List (List String)) (accountId : String)
    (accountName : Option String) (currency : String) (fmt : FormatConfig)
    (db : ImportDB) : Except CSVImportError ImportResult × ImportDB :=
  match rows with
  | [] => (.error ⟨"CSV file is empty or has no headers"⟩, db)
  | headers :: dataRows =>
    if headers = [] then (.error ⟨"CSV file is empty or has no headers"⟩, db)
    else
      match find_column headers fmt.date_column with
      | none =>
        (.error ⟨"Could not find date column. Expected one of: "
          ++ toString fmt.date_column⟩, db)
      | some dateCol =>
        match find_column headers fmt.amount_column with
        | none =>
          (.error ⟨"Could not find amount column. Expected one of: "
            ++ toString fmt.amount_column⟩, db)
        | some amountCol =>
          let cols : Cols :=
            { dateCol := dateCol, amountCol := amountCol,
              descCol := find_column headers fmt.description_column,
              debitCol := debitColOf headers, creditCol := creditColOf headers,
              dateFormats := fmt.date_formats, decSep := fmt.decimal_separator }
          let known := (db.transactions.filter (fun t => t.account_id = accountId)).map
            StoredTxn.id
          let r := processRows accountId currency cols dataRows known 1
          let accounts' := store_csv_account accountId
            (accountName.getD ("CSV Import - " ++ fmt.name)) currency db.accounts
          let transactions' := r.transactions.foldl insertTxn db.transactions
          (.ok { success := true, bank_name := fmt.name, account_id := accountId,
                 account_name := accountName,
                 total_rows := dataRows.length,
                 imported := r.transactions.length,
                 duplicates := r.duplicates.length,
                 duplicate_details := r.duplicates.take 10,
                 errors := r.errors.take 10,
                 error_count := r.errors.length,
                 transactions := r.transactions },
           { accounts := accounts', transactions := transactions' })

/-- A concrete bank format used by witnesses: the `generic` entry of
`BANK_FORMATS` restricted to its first few column candidates. -/
def exampleFmt : FormatConfig :=
  { name := "Generic CSV",
    date_column := ["Date", "Datum", "date"],
    amount_column := ["Amount", "Betrag", "amount"],
    description_column := ["Description", "description"],
    date_formats := [.ymdDash, .dmySlash, .dmyDot],
    decimal_separator := '.' }

/-- Shape of an import result for stating concrete outcomes: total
rows, imported, duplicates, error count, error list (a structural error
is reported as an impossible shape). -/
def importOutline (e : Except CSVImportError ImportResult) :
    Nat × Nat × Nat × Nat × List String :=
  match e with
  | .ok r => (r.total_rows, r.imported, r.duplicates, r.error_count, r.errors)
  | .error err => (0, 0, 0, 0, [err.msg])

/-- A two-row CSV fixture used by the idempotent re-import witness. -/
def w2rows : List (List String) :=
  [["date", "amount", "description"],
   ["2024-01-02", "-50.00", "Coffee Shop"],
   ["2024-01-03", "-20.00", "Lunch"]]

/-- First import of `w2rows` into a fresh database. -/
def w2run1 : Except CSVImportError ImportResult × ImportDB :=
  importCsv w2rows "acct1" (some "A") "EUR" exampleFmt ⟨[], []⟩

/-- The first run's result record. -/
def w2res1 : ImportResult :=
  match w2run1.1 with
  | .ok r => r
  | .error _ => default

/-- The resolved columns for a two-column `date,amount` header under
`exampleFmt`. -/
def exampleCols : Cols :=
  { dateCol := 0, amountCol := 1, descCol := none, debitCol := none,
    creditCol := none, dateFormats := [.ymdDash, .dmySlash, .dmyDot],
    decSep := '.' }

/-- The category labels that the cascade can produce for a non-user
transaction: the ten configured category names plus the heuristic labels
`income` and the default `other` (the heuristics' other labels already
being category names). -/
def categoryLabels : List String :=
  ["groceries", "dining", "transport", "shopping", "subscriptions", "utilities",
   "entertainment", "health", "housing", "transfers", "income", "other"]

/-! ## Theorems -/

/-- C3: the transaction id produced by the dedup key builder is a
deterministic function of the account id, the ISO date, the amount
rounded to exactly two decimal places, and the description normalized by
whitespace collapsing, lowercasing and trimming: any two inputs that
agree on the four normalized fields produce the identical id.  In
particular `-50`/`-50.00` and `-50.004`/`-50.001` collide on the amount
field, and descriptions differing only in case and whitespace collide on
the description field (see the witness). -/
theorem create_transaction_hash_deterministic
    (account_id booking_date : String) (x y : Rat) (dx dy : String)
    (hamt : formatAmount2 x = formatAmount2 y)
    (hdesc : normalizeDesc dx = normalizeDesc dy) :
    create_transaction_hash account_id booking_date x dx
      = create_transaction_hash account_id booking_date y dy := by
  unfold create_transaction_hash
  rw [hamt, hdesc]

/-- Witness for C3 at concrete inputs: `-50.004` and `-50.001` format
identically, `"Coffee  SHOP "` and `"coffee shop"` normalize
identically, so the two ids coincide. -/
theorem create_transaction_hash_deterministic_witness :
    formatAmount2 (-50.004 : Rat) = formatAmount2 (-50.001 : Rat)
    ∧ formatAmount2 (-50 : Rat) = formatAmount2 (-50.00 : Rat)
    ∧ normalizeDesc "Coffee  SHOP " = normalizeDesc "coffee shop"
    ∧ create_transaction_hash "acct1" "2024-01-02" (-50.004) "Coffee  SHOP "
      = create_transaction_hash "acct1" "2024-01-02" (-50.001) "coffee shop" := by
  have l1 : (-50.004 : Rat) = mkRat (-12501) 250 := by norm_num [Rat.mkRat_eq_div]
  have l2 : (-50.001 : Rat) = mkRat (-50001) 1000 := by norm_num [Rat.mkRat_eq_div]
  have l3 : (-50.00 : Rat) = mkRat (-50) 1 := by norm_num [Rat.mkRat_eq_div]
  have l4 : (-50 : Rat) = mkRat (-50) 1 := by norm_num [Rat.mkRat_eq_div]
  refine ⟨?_, ?_, by decide, ?_⟩
  · rw [l1, l2]; decide
  · rw [l3, l4]
  · exact create_transaction_hash_deterministic "acct1" "2024-01-02" (-50.004) (-50.001)
      "Coffee  SHOP " "coffee shop" (by rw [l1, l2]; decide) (by decide)

/-- C4: `parse_amount` parses `"1.234,56"` with separator `,` to
`1234.56`, `"(100.00)"` to `-100.00`, `"50.00CR"` to `50.00`,
`"50.00DR"` to `-50.00`, and returns `0.0` for every input whose cleaned
form the final `float()` cannot parse (the function is total — the
embedding has no failure path, mirroring the `try/except` returning
`0.0`). -/
theorem parse_amount_spec :
    parse_amount "1.234,56" ',' = 1234.56
    ∧ parse_amount "(100.00)" '.' = -100.00
    ∧ parse_amount "50.00CR" '.' = 50.00
    ∧ parse_amount "50.00DR" '.' = -50.00
    ∧ ∀ (value : String) (sep : Char),
        parseFloat? (cleanAmountValue value sep) = none → parse_amount value sep = 0 := by
  have l1 : (1234.56 : Rat) = mkRat 30864 25 := by norm_num [Rat.mkRat_eq_div]
  have l2 : (-100.00 : Rat) = mkRat (-100) 1 := by norm_num [Rat.mkRat_eq_div]
  have l3 : (50.00 : Rat) = mkRat 50 1 := by norm_num [Rat.mkRat_eq_div]
  have l4 : (-50.00 : Rat) = mkRat (-50) 1 := by norm_num [Rat.mkRat_eq_div]
  refine ⟨by rw [l1]; decide, by rw [l2]; decide, by rw [l3]; decide,
    by rw [l4]; decide, ?_⟩
  intro value sep h
  unfold parse_amount
  split
  · rfl
  · rw [h]

/-- Witness for C4's universally quantified conjunct: `"abc"` cleans to
an unparsable string and `parse_amount` maps it to `0`. -/
theorem parse_amount_spec_witness :
    parseFloat? (cleanAmountValue "abc" '.') = none ∧ parse_amount "abc" '.' = 0 :=
  ⟨by decide, parse_amount_spec.2.2.2.2 "abc" '.' (by decide)⟩

/-- C5 counterexample: the claim asserts that a transaction with amount
`-3` and description `"monthly fee"` is categorized as `'utilities'` via
the fee-keyword branch of the amount heuristic.  It is not: the
`subscriptions` category's default pattern `(?i).*monthly.*` matches the
combined text at the pattern-matching step (step 3), which runs before
the amount heuristic (step 5), so the function returns
`'subscriptions'`. -/
theorem categorize_monthly_fee_counterexample :
    categorize_transaction { amount := some (-3), description := some "monthly fee" }
      = "subscriptions"
    ∧ categorize_transaction { amount := some (-3), description := some "monthly fee" }
      ≠ "utilities" := by
  constructor <;> decide

/-- C5 (amended): for a transaction with no user override, no MCC code
and empty combined text, amount `+1500` gives `'income'` and amount
`+50` gives `'transfers'`; a transaction with no user override whose
combined text is `"  monthly fee"` (empty creditor and debtor,
description `"monthly fee"`) gives `'subscriptions'`, because the
`(?i).*monthly.*` pattern of the `subscriptions` category matches before
the amount heuristic is reached — not `'utilities'` as the original
claim stated. -/
theorem categorize_amount_examples_amended :
    (∀ t : Txn, t.category_source ≠ some "user" → combinedText t = "  " →
      t.mcc_code = none → t.amount = some 1500 → categorize_transaction t = "income")
    ∧ (∀ t : Txn, t.category_source ≠ some "user" → combinedText t = "  " →
      t.mcc_code = none → t.amount = some 50 → categorize_transaction t = "transfers")
    ∧ (∀ t : Txn, t.category_source ≠ some "user" → combinedText t = "  monthly fee" →
      categorize_transaction t = "subscriptions") := by
  have hfc : findCategory load_categories.categories "  " = none := by decide
  have hfm : findCategory load_categories.categories "  monthly fee"
      = some "subscriptions" := by decide
  refine ⟨?_, ?_, ?_⟩
  · intro t h1 h2 h3 h4
    have hmcc : mccCategory t load_categories = none := by
      unfold mccCategory; rw [h3]
    unfold categorize_transaction
    dsimp only
    rw [if_neg h1, h2, hfc, hmcc, h4]
    norm_num
  · intro t h1 h2 h3 h4
    have hmcc : mccCategory t load_categories = none := by
      unfold mccCategory; rw [h3]
    unfold categorize_transaction
    dsimp only
    rw [if_neg h1, h2, hfc, hmcc, h4]
    norm_num
  · intro t h1 h2
    unfold categorize_transaction
    dsimp only
    rw [if_neg h1, h2, hfm]

/-- Witness for C5 (amended) at concrete transactions. -/
theorem categorize_amount_examples_amended_witness :
    categorize_transaction { amount := some 1500 } = "income"
    ∧ categorize_transaction { amount := some 50 } = "transfers"
    ∧ categorize_transaction { amount := some (-3), description := some "monthly fee" }
      = "subscriptions" :=
  ⟨categorize_amount_examples_amended.1 { amount := some 1500 }
     (by decide) (by decide) (by decide) (by decide),
   categorize_amount_examples_amended.2.1 { amount := some 50 }
     (by decide) (by decide) (by decide) (by decide),
   categorize_amount_examples_amended.2.2
     { amount := some (-3), description := some "monthly fee" }
     (by decide) (by decide)⟩

/-- C10: a transaction with amount exactly `0`, no user override, no
pattern or keyword match on its combined text, and no mapped MCC code
falls into the expense branch of the amount heuristic (Python's
`amount > 0` is false at zero): `|0| < 5`, so it is categorized as
`'utilities'` when the combined text contains a fee keyword and
`'subscriptions'` otherwise — never as `'income'` or `'transfers'`. -/
theorem categorize_zero_amount (t : Txn)
    (hz : t.amount = some 0)
    (hu : t.category_source ≠ some "user")
    (hcat : findCategory load_categories.categories (combinedText t) = none)
    (hmcc : mccCategory t load_categories = none) :
    categorize_transaction t
      = (if feeWords.any (fun w => listInfix w.toList (combinedText t).toList)
         then "utilities" else "subscriptions")
    ∧ categorize_transaction t ≠ "income"
    ∧ categorize_transaction t ≠ "transfers" := by
  have hmain : categorize_transaction t
      = (if feeWords.any (fun w => listInfix w.toList (combinedText t).toList)
         then "utilities" else "subscriptions") := by
    unfold categorize_transaction
    dsimp only
    rw [if_neg hu, hcat, hmcc, hz]
    norm_num
  refine ⟨hmain, ?_, ?_⟩ <;> rw [hmain] <;>
    cases feeWords.any (fun w => listInfix w.toList (combinedText t).toList) <;> decide

/-- Witness for C10 at the all-defaults zero-amount transaction. -/
theorem categorize_zero_amount_witness :
    categorize_transaction { amount := some 0 } = "subscriptions"
    ∧ categorize_transaction { amount := some 0 } ≠ "income"
    ∧ categorize_transaction { amount := some 0 } ≠ "transfers" := by
  have h := categorize_zero_amount { amount := some 0 }
    (by decide) (by decide) (by decide) (by decide)
  exact ⟨h.1.trans (by decide), h.2.1, h.2.2⟩

/-- The loop of `add_merchant_rule` on a list whose first name match is
`cd`: it succeeds, touches only `cd`, and appends the pattern exactly
when it is not already present. -/
theorem addRuleToCats_spec (p low : String) (pre post : List CategoryDef)
    (cd : CategoryDef) (hpre : ∀ cd' ∈ pre, cd'.name ≠ low) (hname : cd.name = low) :
    addRuleToCats p low (pre ++ cd :: post)
      = (true, pre ++ { cd with patterns :=
          if p ∈ cd.patterns then cd.patterns else cd.patterns ++ [p] } :: post) := by
  induction pre with
  | nil => simp [addRuleToCats, hname]
  | cons a pre ih =>
    have ha : a.name ≠ low := hpre a (List.mem_cons_self a pre)
    have ih' := ih fun cd' h => hpre cd' (List.mem_cons_of_mem a h)
    simp [addRuleToCats, ha, ih']

/-- C9: `add_merchant_rule` is idempotent.  If the requested category
exists (its stored name equals the lowercased request, with `cd` the
first such entry) and the generated pattern `(?i).*escaped.*` is not yet
in its pattern list, then the first call succeeds and appends the
pattern, the second call succeeds and changes nothing, and the resulting
pattern list contains exactly one occurrence of the pattern. -/
theorem add_merchant_rule_idempotent
    (merchant category : String) (config : CategoriesConfig)
    (pre post : List CategoryDef) (cd : CategoryDef)
    (hsplit : config.categories = pre ++ cd :: post)
    (hpre : ∀ cd' ∈ pre, cd'.name ≠ pyLower category)
    (hname : cd.name = pyLower category)
    (hnew : merchantPattern merchant ∉ cd.patterns) :
    (add_merchant_rule merchant category config).1 = true
    ∧ (add_merchant_rule merchant category config).2.categories
        = pre ++ { cd with patterns := cd.patterns ++ [merchantPattern merchant] } :: post
    ∧ (add_merchant_rule merchant category
        (add_merchant_rule merchant category config).2).1 = true
    ∧ (add_merchant_rule merchant category
        (add_merchant_rule merchant category config).2).2
        = (add_merchant_rule merchant category config).2
    ∧ (cd.patterns ++ [merchantPattern merchant]).count (merchantPattern merchant) = 1 := by
  have hdef : ∀ cfg : CategoriesConfig,
      add_merchant_rule merchant category cfg
        = ((addRuleToCats (merchantPattern merchant) (pyLower category) cfg.categories).1,
           { cfg with categories :=
              (addRuleToCats (merchantPattern merchant) (pyLower category) cfg.categories).2 }) :=
    fun _ => rfl
  have h1 := addRuleToCats_spec (merchantPattern merchant) (pyLower category)
    pre post cd hpre hname
  rw [if_neg hnew] at h1
  have h2 := addRuleToCats_spec (merchantPattern merchant) (pyLower category)
    pre post { cd with patterns := cd.patterns ++ [merchantPattern merchant] }
    hpre hname
  rw [if_pos (List.mem_append_right cd.patterns (List.mem_singleton_self _))] at h2
  dsimp only at h2
  have e1 : add_merchant_rule merchant category config
      = (true, { config with categories :=
          pre ++ { cd with patterns := cd.patterns ++ [merchantPattern merchant] } :: post }) := by
    rw [hdef, hsplit, h1]
  have e2 : add_merchant_rule merchant category
      (add_merchant_rule merchant category config).2
      = (true, (add_merchant_rule merchant category config).2) := by
    rw [e1, hdef]
    dsimp only
    rw [h2]
  refine ⟨by rw [e1], by rw [e1], by rw [e2], by rw [e2], ?_⟩
  rw [List.count_append]
  have hz : cd.patterns.count (merchantPattern merchant) = 0 :=
    List.count_eq_zero.mpr hnew
  rw [hz]
  simp

/-- Witness for C9: adding the merchant `"Denner Filiale"` twice to the
default `groceries` category (the head of the default category list). -/
theorem add_merchant_rule_idempotent_witness :
    (add_merchant_rule "Denner Filiale" "Groceries" get_default_categories).1 = true
    ∧ (add_merchant_rule "Denner Filiale" "Groceries"
        (add_merchant_rule "Denner Filiale" "Groceries" get_default_categories).2).1 = true
    ∧ (get_default_categories.categories.headI.patterns
        ++ [merchantPattern "Denner Filiale"]).count
          (merchantPattern "Denner Filiale") = 1 := by
  have h := add_merchant_rule_idempotent "Denner Filiale" "Groceries"
    get_default_categories [] get_default_categories.categories.tail
    get_default_categories.categories.headI
    rfl (by simp) (by decide) (by decide)
  exact ⟨h.1, h.2.2.1, h.2.2.2.2⟩

/-- C6: when the header row lacks a recognizable date column or lacks a
recognizable amount column, `import_csv` returns the typed
`CSVImportError` before any data row is processed — the result is the
same error for every list of data rows — and the database state is
returned unchanged (no transaction, and no account row either, is
persisted). -/
theorem import_missing_column_fails
    (headers : List String) (dataRows : List (List String)) (accountId : String)
    (accountName : Option String) (currency : String) (fmt : FormatConfig)
    (db : ImportDB) (hne : headers ≠ [])
    (hmiss : find_column headers fmt.date_column = none
      ∨ find_column headers fmt.amount_column = none) :
    ∃ e : CSVImportError,
      importCsv (headers :: dataRows) accountId accountName currency fmt db
        = (.error e, db) := by
  unfold importCsv
  dsimp only
  rw [if_neg hne]
  rcases hmiss with h | h
  · rw [h]
    exact ⟨_, rfl⟩
  · cases hd : find_column headers fmt.date_column with
    | none => exact ⟨_, rfl⟩
    | some dc =>
      rw [h]
      exact ⟨_, rfl⟩

/-- Witness for C6: a header with neither a date nor an amount column. -/
theorem import_missing_column_fails_witness :
    ∃ e : CSVImportError,
      importCsv [["foo", "bar"], ["2024-01-01", "5"]] "acct1" none "EUR" exampleFmt
        ⟨[], []⟩ = (.error e, ⟨[], []⟩) :=
  import_missing_column_fails ["foo", "bar"] [["2024-01-01", "5"]] "acct1" none "EUR"
    exampleFmt ⟨[], []⟩ (by decide) (.inl (by decide))

/-- C7 counterexample: the claim says a malformed row shorter than the
expected column count is recorded in the result's error list.  It is
not: the row loop's first check is `if len(row) <= max(date_col,
amount_col): continue`, which skips the row silently.  Here row 2
(`["2024-01-05"]`) is short, yet the import finishes with an empty
error list, `error_count = 0`, and continues to import row 3. -/
theorem import_short_row_silent_counterexample :
    importOutline (importCsv [["date", "amount"], ["2024-01-05"], ["2024-01-06", "-5.0"]]
        "acct1" none "EUR" exampleFmt ⟨[], []⟩).1
      = (2, 1, 0, 0, []) := by decide

/-- C7 (amended): a data row shorter than the mandatory columns require
is skipped silently — the import continues with the next row and no
error entry is recorded; a data row whose date cell does not parse is
recorded in the error list as `Row N: Could not parse date '...'` and
skipped, and the import continues with the next row.  The import never
aborts on a row-level problem. -/
theorem processRows_row_level_errors
    (acct currency : String) (cols : Cols) (row : List String)
    (rest : List (List String)) (known : List String) (rowNum : Nat) :
    (row.length ≤ max cols.dateCol cols.amountCol →
      processRows acct currency cols (row :: rest) known rowNum
        = processRows acct currency cols rest known (rowNum + 1))
    ∧ (max cols.dateCol cols.amountCol < row.length →
      parse_date (pyStrip (row.getD cols.dateCol "")) cols.dateFormats = none →
      processRows acct currency cols (row :: rest) known rowNum
        = { processRows acct currency cols rest known (rowNum + 1) with
            errors := ("Row " ++ natStr (rowNum + 1) ++ ": Could not parse date "
                ++ sq ++ pyStrip (row.getD cols.dateCol "") ++ sq)
              :: (processRows acct currency cols rest known (rowNum + 1)).errors }) := by
  constructor
  · intro hshort
    simp only [processRows]
    rw [if_pos hshort]
  · intro hlong hdate
    simp only [processRows]
    rw [if_neg (Nat.not_le.mpr hlong), hdate]

/-- Witness for C7 (amended): a short row is skipped with no error; a
bad-date row records exactly the message and continues. -/
theorem processRows_row_level_errors_witness :
    (processRows "acct1" "EUR" exampleCols [["2024-01-05"]] [] 1
      = processRows "acct1" "EUR" exampleCols [] [] 2)
    ∧ (processRows "acct1" "EUR" exampleCols [["xx", "-7"]] [] 1
      = { processRows "acct1" "EUR" exampleCols [] [] 2 with
          errors := ("Row " ++ natStr 2 ++ ": Could not parse date "
              ++ sq ++ pyStrip "xx" ++ sq)
            :: (processRows "acct1" "EUR" exampleCols [] [] 2).errors }) :=
  ⟨(processRows_row_level_errors "acct1" "EUR" exampleCols ["2024-01-05"] [] [] 1).1
     (by decide),
   (processRows_row_level_errors "acct1" "EUR" exampleCols ["xx", "-7"] [] [] 1).2
     (by decide) (by decide)⟩

/-- A transaction whose id is hit by no update pair is left exactly in
place by `update_transaction_categories`. -/
theorem update_transaction_categories_preserves
    (ups : List (String × String)) (db : List Txn) (i : Nat) (t : Txn)
    (hget : db[i]? = some t) (hid : ∀ p ∈ ups, p.1 ≠ t.id) :
    (update_transaction_categories ups db)[i]? = some t := by
  induction ups generalizing db with
  | nil => exact hget
  | cons p ups ih =>
    have hstep : (db.map fun x =>
        if x.id = p.1 then { x with category := some p.2, category_source := some "auto" }
        else x)[i]? = some t := by
      rw [List.getElem?_map _ db i, hget]
      have : t.id ≠ p.1 := fun h => (hid p (List.mem_cons_self p ups)) h.symm
      simp [this]
    exact ih _ hstep fun q hq => hid q (List.mem_cons_of_mem p hq)

/-- C1: the categorization engine never overrides a user-set category.
For every transaction whose `category_source` is `'user'`,
`categorize_transaction` returns the stored category unchanged —
whatever the transaction's text, MCC code, amount or booking date (the
theorem holds for arbitrary field values, so no pattern, keyword, MCC or
heuristic step is consulted) — and a run of `auto_categorize_recent`
leaves every such row of the table exactly as it was (assuming the
primary-key invariant that ids are distinct).  `categorize_batch` and
`categorize_transaction` perform no write at all in the embedding, being
pure functions. -/
theorem user_override_never_overwritten (t : Txn)
    (hu : t.category_source = some "user") :
    categorize_transaction t = t.category.getD "other"
    ∧ ∀ (cutoff : String) (db : List Txn), (db.map Txn.id).Nodup →
        ∀ i : Nat, db[i]? = some t →
          (auto_categorize_recent cutoff db).2[i]? = some t := by
  have hcat : categorize_transaction t = t.category.getD "other" := by
    unfold categorize_transaction
    rw [if_pos hu]
  refine ⟨hcat, ?_⟩
  intro cutoff db hnodup i hget
  have htmem : t ∈ db := List.getElem?_mem hget
  unfold auto_categorize_recent
  dsimp only
  split
  · exact hget
  · split
    · exact hget
    · apply update_transaction_categories_preserves _ _ _ _ hget
      intro p hp
      rcases List.mem_filterMap.mp hp with ⟨s, hsrec, hsf⟩
      rcases List.mem_filter.mp hsrec with ⟨hsdb, hscond⟩
      intro hpid
      by_cases hc : categorize_transaction s ≠ "" ∧ categorize_transaction s ≠ "other"
      · rw [if_pos hc] at hsf
        have hsid : s.id = t.id := by
          have hps := Option.some.inj hsf
          rw [← hps] at hpid
          exact hpid
        have hst : s = t :=
          List.inj_on_of_nodup_map hnodup hsdb htmem hsid
        have hscat : s.category = none := by
          have := (Bool.and_eq_true _ _).mp hscond |>.2
          simpa using this
        have hscat' : t.category = none := by rw [← hst]; exact hscat
        have : categorize_transaction s = "other" := by
          rw [hst, hcat, hscat']
          rfl
        exact hc.2 this
      · rw [if_neg hc] at hsf
        exact Option.noConfusion hsf

/-- Witness for C1: a user-categorized transaction keeps its category
through `categorize_transaction` and through `auto_categorize_recent`
over a one-row table. -/
theorem user_override_never_overwritten_witness :
    categorize_transaction
        { id := "t1", amount := some (-9), category := some "dining",
          category_source := some "user",
          booking_date := some "2024-01-05" } = "dining"
    ∧ (auto_categorize_recent "2020-01-01"
        [{ id := "t1", amount := some (-9), category := some "dining",
           category_source := some "user",
           booking_date := some "2024-01-05" }]).2[0]?
      = some { id := "t1", amount := some (-9), category := some "dining",
               category_source := some "user",
               booking_date := some "2024-01-05" } := by
  have h := user_override_never_overwritten
    { id := "t1", amount := some (-9), category := some "dining",
      category_source := some "user", booking_date := some "2024-01-05" } rfl
  exact ⟨h.1.trans (by decide), h.2 "2020-01-01" _ (by decide) 0 rfl⟩

/-- A successful pattern/keyword lookup returns the name of one of the
configured categories. -/
theorem findCategory_mem_names (cats : List CategoryDef) (text : String) (c : String)
    (h : findCategory cats text = some c) : c ∈ cats.map CategoryDef.name := by
  induction cats with
  | nil => exact absurd h (by simp [findCategory])
  | cons cd rest ih =>
    unfold findCategory at h ih
    rw [List.findSome?_cons] at h
    cases hv : (if (cd.patterns.any fun p => matchesPattern p text) = true then some cd.name
        else if (cd.keywords.any fun k => listInfix (lcLower k.toList) text.toList) = true
        then some cd.name else none) with
    | some v =>
      rw [hv] at h
      simp only [] at h
      have hvname : v = cd.name := by
        split at hv
        · exact (Option.some.inj hv).symm
        · split at hv
          · exact (Option.some.inj hv).symm
          · cases hv
      rw [← Option.some.inj h, hvname]
      simp
    | none =>
      rw [hv] at h
      simp only [] at h
      simpa using Or.inr (ih h)

/-- A successful association-list lookup returns one of the stored
values. -/
theorem lookup_mem_values (k : String) (l : List (String × String)) (v : String)
    (h : l.lookup k = some v) : v ∈ l.map Prod.snd := by
  induction l with
  | nil => exact absurd h (by simp)
  | cons p rest ih =>
    rw [List.lookup] at h
    split at h
    · cases h
      simp
    · simpa using Or.inr (ih h)

/-- C8: `categorize_transaction` is total — in this embedding every
fallible step (missing or `None` fields, empty strings, malformed
booking dates, absent MCC codes) is handled by `Option` defaults, so the
function never raises and always returns a label: for a user-overridden
transaction the stored category (default `'other'`), and otherwise one
of the fixed category labels, with `'other'` as the final fallback of
the cascade. -/
theorem categorize_transaction_total (t : Txn) :
    (t.category_source = some "user"
      ∧ categorize_transaction t = t.category.getD "other")
    ∨ categorize_transaction t ∈ categoryLabels := by
  by_cases hu : t.category_source = some "user"
  · left
    refine ⟨hu, ?_⟩
    unfold categorize_transaction
    rw [if_pos hu]
  · right
    have hnames : ∀ x ∈ load_categories.categories.map CategoryDef.name,
        x ∈ categoryLabels := by decide
    have hvals : ∀ x ∈ load_categories.mcc_mappings.map Prod.snd,
        x ∈ categoryLabels := by decide
    unfold categorize_transaction
    rw [if_neg hu]
    dsimp only
    cases hfc : findCategory load_categories.categories (combinedText t) with
    | some c =>
      dsimp only
      exact hnames c (findCategory_mem_names _ _ _ hfc)
    | none =>
      dsimp only
      cases hmc : mccCategory t load_categories with
      | some c =>
        dsimp only
        unfold mccCategory at hmc
        split at hmc
        · split at hmc
          · exact hvals c (lookup_mem_values _ _ _ hmc)
          · cases hmc
        · cases hmc
      | none =>
        dsimp only
        split
        · split <;> decide
        · split
          · split <;> decide
          · split
            · decide
            · split
              · split
                · split <;> decide
                · decide
              · decide

/-- Invariants of the row loop's transaction output: at most one
transaction per data row; every transaction belongs to the importing
account and its id is new relative to the initial known-id set; and the
produced ids are pairwise distinct (each id enters the known-id set the
moment its transaction is emitted). -/
theorem processRows_txns_facts (acct currency : String) (cols : Cols) :
    ∀ (rows : List (List String)) (known : List String) (n : Nat),
      (processRows acct currency cols rows known n).transactions.length ≤ rows.length
      ∧ (∀ t ∈ (processRows acct currency cols rows known n).transactions,
          t.account_id = acct ∧ t.id ∉ known)
      ∧ ((processRows acct currency cols rows known n).transactions.map
          ParsedTxn.id).Nodup := by
  intro rows
  induction rows with
  | nil => intro known n; simp [processRows]
  | cons row rest ih =>
    intro known n
    simp only [processRows]
    split
    · have h := ih known (n + 1)
      exact ⟨h.1.trans (Nat.le_succ _), h.2.1, h.2.2⟩
    · split
      · have h := ih known (n + 1)
        exact ⟨h.1.trans (Nat.le_succ _), h.2.1, h.2.2⟩
      · split
        · have h := ih known (n + 1)
          exact ⟨h.1.trans (Nat.le_succ _), h.2.1, h.2.2⟩
        · split
          · have h := ih known (n + 1)
            exact ⟨h.1.trans (Nat.le_succ _), h.2.1, h.2.2⟩
          · rename_i bd hbd hamt hdup
            have h := ih (create_transaction_hash acct bd.iso (rowAmount cols row)
              (rowDesc cols row) :: known) (n + 1)
            refine ⟨?_, ?_, ?_⟩
            · simpa using Nat.succ_le_succ h.1
            · intro t ht
              rcases List.mem_cons.mp ht with rfl | ht'
              · exact ⟨rfl, hdup⟩
              · have := h.2.1 t ht'
                exact ⟨this.1, fun hk => this.2 (List.mem_cons_of_mem _ hk)⟩
            · simp only [List.map_cons]
              refine List.nodup_cons.mpr ⟨?_, h.2.2⟩
              intro hmem
              rcases List.mem_map.mp hmem with ⟨t, ht, hid⟩
              exact (h.2.1 t ht).2 (hid ▸ List.mem_cons_self _ _)

/-- Re-running the row loop over a known-id set that already contains
the id of every transaction the first run produced (and assuming the
first run produced one transaction per row): every row is recorded as a
duplicate — none is stored again, no error is recorded, and there is
one duplicate entry per row. -/
theorem processRows_rerun (acct currency : String) (cols : Cols) :
    ∀ (rows : List (List String)) (known known' : List String) (n n' : Nat),
      (processRows acct currency cols rows known n).transactions.length = rows.length →
      (∀ t ∈ (processRows acct currency cols rows known n).transactions, t.id ∈ known') →
      (processRows acct currency cols rows known' n').transactions = []
      ∧ (processRows acct currency cols rows known' n').duplicates.length = rows.length
      ∧ (processRows acct currency cols rows known' n').errors = [] := by
  intro rows
  induction rows with
  | nil =>
    intro known known' n n' _ _
    simp [processRows]
  | cons row rest ih =>
    intro known known' n n' hlen hsub
    have hbound := (processRows_txns_facts acct currency cols rest known (n + 1)).1
    by_cases hshort : row.length ≤ max cols.dateCol cols.amountCol
    · simp only [processRows, if_pos hshort, List.length_cons] at hlen
      omega
    · cases hdate : parse_date (pyStrip (row.getD cols.dateCol "")) cols.dateFormats with
      | none =>
        simp only [processRows, if_neg hshort, hdate, List.length_cons] at hlen
        omega
      | some bd =>
        by_cases hz : rowAmount cols row = 0
        · simp only [processRows, if_neg hshort, hdate, if_pos hz, List.length_cons] at hlen
          omega
        · by_cases hdup : create_transaction_hash acct bd.iso (rowAmount cols row)
              (rowDesc cols row) ∈ known
          · simp only [processRows, if_neg hshort, hdate, if_neg hz, if_pos hdup,
              List.length_cons] at hlen
            omega
          · simp only [processRows, if_neg hshort, hdate, if_neg hz, if_neg hdup,
              List.length_cons] at hlen hsub
            have hlen' : (processRows acct currency cols rest
                (create_transaction_hash acct bd.iso (rowAmount cols row)
                  (rowDesc cols row) :: known) (n + 1)).transactions.length
                = rest.length := by omega
            have hhead : create_transaction_hash acct bd.iso (rowAmount cols row)
                (rowDesc cols row) ∈ known' := by
              have := hsub _ (List.mem_cons_self _ _)
              simpa using this
            have hrest : ∀ t ∈ (processRows acct currency cols rest
                (create_transaction_hash acct bd.iso (rowAmount cols row)
                  (rowDesc cols row) :: known) (n + 1)).transactions,
                t.id ∈ known' := fun t ht => hsub t (List.mem_cons_of_mem _ ht)
            have hind := ih _ known' (n + 1) (n' + 1) hlen' hrest
            simp only [processRows, if_neg hshort, hdate, if_neg hz, if_pos hhead]
            refine ⟨hind.1, ?_, hind.2.2⟩
            simp [hind.2.1]

/-- Storing a batch of transactions whose ids are fresh for the table
and pairwise distinct appends them all (`INSERT OR IGNORE` ignores
nothing). -/
theorem foldl_insertTxn_append :
    ∀ (ts : List ParsedTxn) (db : List StoredTxn),
      (∀ t ∈ ts, t.id ∉ db.map StoredTxn.id) →
      (ts.map ParsedTxn.id).Nodup →
      ts.foldl insertTxn db = db ++ ts.map storedOf := by
  intro ts
  induction ts with
  | nil => intro db _ _; simp
  | cons t ts ih =>
    intro db hfresh hnodup
    have hany : db.any (fun s => s.id = t.id) = false := by
      rw [List.any_eq_false]
      intro s hs
      simp only [decide_eq_true_eq]
      intro hid
      exact hfresh t (List.mem_cons_self t ts) (hid ▸ List.mem_map_of_mem StoredTxn.id hs)
    have hstep : insertTxn db t = db ++ [storedOf t] := by
      unfold insertTxn
      rw [hany]
      rfl
    have hn : (∀ x ∈ ts, ¬x.id = t.id) ∧ (ts.map ParsedTxn.id).Nodup := by
      simpa using hnodup
    have hnotin : t.id ∉ ts.map ParsedTxn.id := by
      intro hmem
      rcases List.mem_map.mp hmem with ⟨u, hu, hid⟩
      exact hn.1 u hu hid
    rw [List.foldl_cons, hstep, ih (db ++ [storedOf t]) ?_ ?_]
    · simp
    · intro u hu
      rw [List.map_append]
      intro hmem
      rcases List.mem_append.mp hmem with hmem | hmem
      · exact hfresh u (List.mem_cons_of_mem t hu) hmem
      · have : u.id = t.id := by simpa [storedOf] using hmem
        exact hnotin (this ▸ List.mem_map_of_mem ParsedTxn.id hu)
    · exact hn.2

/-- Characterization of a structurally valid `import_csv` run: with a
nonempty header and both mandatory columns found, the call performs the
row loop seeded with the account's stored ids and then stores account
and transactions. -/
theorem importCsv_ok_spec (headers : List String) (dataRows : List (List String))
    (acct : String) (an : Option String) (cur : String) (fmt : FormatConfig)
    (db : ImportDB) (dateCol amountCol : Nat)
    (hhe : headers ≠ [])
    (hdc : find_column headers fmt.date_column = some dateCol)
    (hac : find_column headers fmt.amount_column = some amountCol) :
    importCsv (headers :: dataRows) acct an cur fmt db
      = (let cols : Cols :=
          { dateCol := dateCol, amountCol := amountCol,
            descCol := find_column headers fmt.description_column,
            debitCol := debitColOf headers, creditCol := creditColOf headers,
            dateFormats := fmt.date_formats, decSep := fmt.decimal_separator }
         let known := (db.transactions.filter
           (fun t => t.account_id = acct)).map StoredTxn.id
         let r := processRows acct cur cols dataRows known 1
         (.ok { success := true, bank_name := fmt.name, account_id := acct,
                account_name := an, total_rows := dataRows.length,
                imported := r.transactions.length,
                duplicates := r.duplicates.length,
                duplicate_details := r.duplicates.take 10,
                errors := r.errors.take 10,
                error_count := r.errors.length,
                transactions := r.transactions },
          { accounts := store_csv_account acct
              (an.getD ("CSV Import - " ++ fmt.name)) cur db.accounts,
            transactions := r.transactions.foldl insertTxn db.transactions })) := by
  unfold importCsv
  dsimp only
  rw [if_neg hhe, hdc, hac]

/-- C2: idempotent re-import.  If a run of `import_csv` succeeds with
`imported = total_rows = N` (every data row stored) and the stored ids
were fresh for the table, then importing the identical rows into the
same account again succeeds with `duplicate = N` and `imported = 0`:
every data row of the second run is reported as a duplicate (checked
against the account's stored rows, which now include the first run's
output, with in-file duplicates handled by the same known-id set), no
row-level error occurs, no transaction is emitted, and the stored
transaction table is unchanged — zero net change to the transaction
count. -/
theorem import_idempotent_reimport
    (rows : List (List String)) (acct : String) (an : Option String) (cur : String)
    (fmt : FormatConfig) (db0 db1 : ImportDB) (res1 : ImportResult)
    (h1 : importCsv rows acct an cur fmt db0 = (.ok res1, db1))
    (hall : res1.imported = res1.total_rows)
    (hfresh : ∀ t ∈ res1.transactions, t.id ∉ db0.transactions.map StoredTxn.id) :
    ∃ (res2 : ImportResult) (db2 : ImportDB),
      importCsv rows acct an cur fmt db1 = (.ok res2, db2)
      ∧ res2.total_rows = res1.total_rows
      ∧ res2.imported = 0
      ∧ res2.duplicates = res1.total_rows
      ∧ res2.transactions = []
      ∧ res2.error_count = 0
      ∧ db2.transactions = db1.transactions := by
  cases rows with
  | nil => simp [importCsv] at h1
  | cons headers dataRows =>
    by_cases hhe : headers = []
    · rw [importCsv] at h1
      rw [if_pos hhe] at h1
      simp at h1
    · cases hdc : find_column headers fmt.date_column with
      | none =>
        rw [importCsv] at h1
        rw [if_neg hhe, hdc] at h1
        simp at h1
      | some dateCol =>
        cases hac : find_column headers fmt.amount_column with
        | none =>
          rw [importCsv] at h1
          rw [if_neg hhe, hdc, hac] at h1
          simp at h1
        | some amountCol =>
          rw [importCsv_ok_spec headers dataRows acct an cur fmt db0 dateCol amountCol
            hhe hdc hac] at h1
          dsimp only at h1
          have hres : res1 = _ := (Except.ok.inj (congrArg Prod.fst h1)).symm
          have hdb : db1 = _ := (congrArg Prod.snd h1).symm
          have hfacts := processRows_txns_facts acct cur
            { dateCol := dateCol, amountCol := amountCol,
              descCol := find_column headers fmt.description_column,
              debitCol := debitColOf headers, creditCol := creditColOf headers,
              dateFormats := fmt.date_formats, decSep := fmt.decimal_separator }
            dataRows
            ((db0.transactions.filter (fun t => t.account_id = acct)).map StoredTxn.id) 1
          have hlenEq : (processRows acct cur
              { dateCol := dateCol, amountCol := amountCol,
                descCol := find_column headers fmt.description_column,
                debitCol := debitColOf headers, creditCol := creditColOf headers,
                dateFormats := fmt.date_formats, decSep := fmt.decimal_separator }
              dataRows
              ((db0.transactions.filter (fun t => t.account_id = acct)).map StoredTxn.id)
              1).transactions.length = dataRows.length := by
            have e1 : res1.imported = (processRows acct cur
              { dateCol := dateCol, amountCol := amountCol,
                descCol := find_column headers fmt.description_column,
                debitCol := debitColOf headers, creditCol := creditColOf headers,
                dateFormats := fmt.date_formats, decSep := fmt.decimal_separator }
              dataRows
              ((db0.transactions.filter (fun t => t.account_id = acct)).map StoredTxn.id)
              1).transactions.length := by rw [hres]
            have e2 : res1.total_rows = dataRows.length := by rw [hres]
            rw [e1, e2] at hall
            exact hall
          have hrestx : res1.transactions = (processRows acct cur
              { dateCol := dateCol, amountCol := amountCol,
                descCol := find_column headers fmt.description_column,
                debitCol := debitColOf headers, creditCol := creditColOf headers,
                dateFormats := fmt.date_formats, decSep := fmt.decimal_separator }
              dataRows
              ((db0.transactions.filter (fun t => t.account_id = acct)).map StoredTxn.id)
              1).transactions := by rw [hres]
          have hfreshr : ∀ t ∈ (processRows acct cur
              { dateCol := dateCol, amountCol := amountCol,
                descCol := find_column headers fmt.description_column,
                debitCol := debitColOf headers, creditCol := creditColOf headers,
                dateFormats := fmt.date_formats, decSep := fmt.decimal_separator }
              dataRows
              ((db0.transactions.filter (fun t => t.account_id = acct)).map StoredTxn.id)
              1).transactions,
              t.id ∉ db0.transactions.map StoredTxn.id := by
            intro t ht
            exact hfresh t (hrestx ▸ ht)
          have hdbtx : db1.transactions = db0.transactions
              ++ ((processRows acct cur
              { dateCol := dateCol, amountCol := amountCol,
                descCol := find_column headers fmt.description_column,
                debitCol := debitColOf headers, creditCol := creditColOf headers,
                dateFormats := fmt.date_formats, decSep := fmt.decimal_separator }
              dataRows
              ((db0.transactions.filter (fun t => t.account_id = acct)).map StoredTxn.id)
              1).transactions.map storedOf) := by
            rw [hdb]
            exact foldl_insertTxn_append _ db0.transactions hfreshr hfacts.2.2
          have hknown1 : (db1.transactions.filter
              (fun t => t.account_id = acct)).map StoredTxn.id
              = ((db0.transactions.filter (fun t => t.account_id = acct)).map StoredTxn.id)
                ++ ((processRows acct cur
                  { dateCol := dateCol, amountCol := amountCol,
                    descCol := find_column headers fmt.description_column,
                    debitCol := debitColOf headers, creditCol := creditColOf headers,
                    dateFormats := fmt.date_formats, decSep := fmt.decimal_separator }
                  dataRows
                  ((db0.transactions.filter (fun t => t.account_id = acct)).map StoredTxn.id)
                  1).transactions.map ParsedTxn.id) := by
            rw [hdbtx, List.filter_append, List.map_append]
            congr 1
            rw [List.filter_eq_self.mpr ?_]
            · rw [List.map_map]
              rfl
            · intro x hx
              rcases List.mem_map.mp hx with ⟨t, ht, rfl⟩
              simpa [storedOf] using (hfacts.2.1 t ht).1
          have hsub : ∀ t ∈ (processRows acct cur
              { dateCol := dateCol, amountCol := amountCol,
                descCol := find_column headers fmt.description_column,
                debitCol := debitColOf headers, creditCol := creditColOf headers,
                dateFormats := fmt.date_formats, decSep := fmt.decimal_separator }
              dataRows
              ((db0.transactions.filter (fun t => t.account_id = acct)).map StoredTxn.id)
              1).transactions,
              t.id ∈ (db1.transactions.filter
                (fun t => t.account_id = acct)).map StoredTxn.id := by
            intro t ht
            rw [hknown1]
            exact List.mem_append_right _ (List.mem_map_of_mem ParsedTxn.id ht)
          have hrerun := processRows_rerun acct cur
            { dateCol := dateCol, amountCol := amountCol,
              descCol := find_column headers fmt.description_column,
              debitCol := debitColOf headers, creditCol := creditColOf headers,
              dateFormats := fmt.date_formats, decSep := fmt.decimal_separator }
            dataRows
            ((db0.transactions.filter (fun t => t.account_id = acct)).map StoredTxn.id)
            ((db1.transactions.filter (fun t => t.account_id = acct)).map StoredTxn.id)
            1 1 hlenEq hsub
          refine ⟨_, _, importCsv_ok_spec headers dataRows acct an cur fmt db1 dateCol
            amountCol hhe hdc hac, ?_, ?_, ?_, ?_, ?_, ?_⟩
          · rw [hres]
          · show (processRows acct cur _ dataRows _ 1).transactions.length = 0
            rw [hrerun.1]
            rfl
          · show (processRows acct cur _ dataRows _ 1).duplicates.length = res1.total_rows
            rw [hrerun.2.1, hres]
          · exact hrerun.1
          · show (processRows acct cur _ dataRows _ 1).errors.length = 0
            rw [hrerun.2.2]
            rfl
          · show ((processRows acct cur _ dataRows _ 1).transactions.foldl insertTxn
              db1.transactions) = db1.transactions
            rw [hrerun.1]
            rfl

/-- Witness for C2: a two-row CSV imported twice into a fresh database.
The first run imports both rows (`imported = total_rows = 2`, fresh
ids); the theorem then yields the second run's outcome: two duplicates,
nothing imported, no errors, table unchanged. -/
theorem import_idempotent_reimport_witness :
    ∃ (res2 : ImportResult) (db2 : ImportDB),
      importCsv w2rows "acct1" (some "A") "EUR" exampleFmt w2run1.2 = (.ok res2, db2)
      ∧ res2.total_rows = w2res1.total_rows
      ∧ res2.imported = 0
      ∧ res2.duplicates = w2res1.total_rows
      ∧ res2.transactions = []
      ∧ res2.error_count = 0
      ∧ db2.transactions = w2run1.2.transactions :=
  import_idempotent_reimport w2rows "acct1" (some "A") "EUR" exampleFmt
    ⟨[], []⟩ w2run1.2 w2res1 (by rfl) (by decide) (by decide)

end FinanceSkill
